import Mathlib

/-
Verification of the nb-lang compiler front-end (lexer + parser).

This file is a shallow embedding, in Lean 4, of the Rust sources under
src/src/parser/ (the crate actually wired together by lib.rs: token.rs,
lexer/mod.rs, lexer/error.rs, ast.rs, parser/mod.rs).  Rust data types
become Lean inductive types, the mutable Lexer/Parser structs become
explicit state records, and every loop is either structural recursion on
the remaining input or recursion on an explicit fuel parameter (the fuel
is an embedding artifact; a dedicated result constructor records
exhaustion, and all concrete runs below are checked to never exhaust it).

Machine integers (i32/i64) are modelled as Int with explicit range
checks, exactly mirroring from_str_radix.  Rust panics (unwrap on None)
are modelled by an explicit result constructor.
-/

namespace NB

/-! ## Character class predicates (Rust char methods used by the lexer) -/

/-- Rust char::is_control: the Unicode Cc category, exactly
U+0000 to U+001F and U+007F to U+009F. -/
def char_is_control (c : Char) : Bool :=
  c.toNat ≤ 0x1F || (0x7F ≤ c.toNat && c.toNat ≤ 0x9F)

/-- Rust char::is_whitespace: the Unicode White_Space property (full list). -/
def char_is_whitespace (c : Char) : Bool :=
  (0x09 ≤ c.toNat && c.toNat ≤ 0x0D) || c.toNat = 0x20 || c.toNat = 0x85 ||
  c.toNat = 0xA0 || c.toNat = 0x1680 ||
  (0x2000 ≤ c.toNat && c.toNat ≤ 0x200A) ||
  c.toNat = 0x2028 || c.toNat = 0x2029 || c.toNat = 0x202F ||
  c.toNat = 0x205F || c.toNat = 0x3000

/-- Rust char::is_alphabetic is the Unicode Alphabetic property; we model its
restriction to ASCII (on which it coincides with ASCII letters).  Every
concrete program text examined in this development is ASCII, and the
universally quantified theorems below do not evaluate this predicate. -/
def char_is_alphabetic (c : Char) : Bool :=
  ('a' ≤ c && c ≤ 'z') || ('A' ≤ c && c ≤ 'Z')

/-- Rust char::to_digit(radix): digit value of a character in the given base
(0-9, then a-z / A-Z starting at 10), if below the radix. -/
def char_to_digit (c : Char) (radix : Nat) : Option Nat :=
  let v : Option Nat :=
    if '0' ≤ c && c ≤ '9' then some (c.toNat - '0'.toNat)
    else if 'a' ≤ c && c ≤ 'z' then some (c.toNat - 'a'.toNat + 10)
    else if 'A' ≤ c && c ≤ 'Z' then some (c.toNat - 'A'.toNat + 10)
    else none
  match v with
  | some d => if d < radix then some d else none
  | none => none

/-- Rust char::is_digit(radix) (the lexer's is_decimal_digit /
is_hexadecimal_digit shortcuts instantiate radix to 10 and 16). -/
def char_is_digit (c : Char) (radix : Nat) : Bool :=
  (char_to_digit c radix).isSome

end NB

namespace NB.token

/-! ## token.rs: positions, spans, token kinds, the keyword table -/

/-- Source position, line and column counters (token.rs, struct Position). -/
structure Position where
  line : Nat
  column : Nat
deriving DecidableEq, Repr

/-- A range of source positions (token.rs, struct Span).  The Rust fields are
named begin and end; `end` is a Lean keyword, so the second field is stop. -/
structure Span where
  begin : Position
  stop : Position
deriving DecidableEq, Repr

/-- token.rs, enum PositionOrSpan. -/
inductive PositionOrSpan where
  | Position (p : token.Position)
  | Span (s : token.Span)
deriving DecidableEq, Repr

/-- token.rs, enum ReservedKeyword. -/
inductive ReservedKeyword where
  | Alias | Array | Break | Case | Class | Continue | Do | Export | Final
  | Import | In | Macro | Of | Override | Private | Protected | Pub | Public
  | Pure | Static | Struct | Switch | This | Trait | Use | Virtual | Yield
deriving DecidableEq, Repr

/-- token.rs, enum Keyword. -/
inductive Keyword where
  | Reserved (k : ReservedKeyword)
  | Const | Else | Elseif | Fun | If | Let | Return | Unless | While
deriving DecidableEq, Repr

/-- token.rs, enum Number: a base tag together with the raw digit text. -/
inductive Number where
  | Binary (st : String)
  | Decimal (st : String)
  | Hexadecimal (st : String)
  | Octal (st : String)
deriving DecidableEq, Repr

/-- token.rs, enum TokenType. -/
inductive TokenType where
  | EOF
  | Underscore
  | Arrow
  | Eq | Plus | Minus | Division | Multiplication | Modulo | Power | Not
  | EqEq | NotEq | Lt | Gt | LtEq | GtEq
  | Or | And | OrOr | AndAnd
  | Comma | Colon | Semicolon | Lparen | Rparen | Lbracket | Rbracket
  | Lbrace | Rbrace
  | Illegal (st : String)
  | Identifier (st : String)
  | Comment (st : String)
  | Keyword (k : Keyword)
  | Boolean (b : Bool)
  | Literal (st : String)
  | Number (n : Number)
deriving DecidableEq, Repr

/-- token.rs, struct Token: a kind together with its source location. -/
structure Token where
  token_type : TokenType
  location : PositionOrSpan
deriving DecidableEq, Repr

/-- token.rs, the phf keyword table KEYWORDS (all 36 entries, in source order). -/
def KEYWORDS : List (String × Keyword) :=
  [ ("alias", .Reserved .Alias)
  , ("array", .Reserved .Array)
  , ("break", .Reserved .Break)
  , ("case", .Reserved .Case)
  , ("class", .Reserved .Class)
  , ("const", .Const)
  , ("continue", .Reserved .Continue)
  , ("do", .Reserved .Do)
  , ("final", .Reserved .Final)
  , ("else", .Else)
  , ("elseif", .Elseif)
  , ("export", .Reserved .Export)
  , ("fun", .Fun)
  , ("if", .If)
  , ("import", .Reserved .Import)
  , ("in", .Reserved .In)
  , ("let", .Let)
  , ("macro", .Reserved .Macro)
  , ("of", .Reserved .Of)
  , ("override", .Reserved .Override)
  , ("private", .Reserved .Private)
  , ("protected", .Reserved .Protected)
  , ("pub", .Reserved .Pub)
  , ("public", .Reserved .Public)
  , ("pure", .Reserved .Pure)
  , ("return", .Return)
  , ("static", .Reserved .Static)
  , ("struct", .Reserved .Struct)
  , ("switch", .Reserved .Switch)
  , ("this", .Reserved .This)
  , ("trait", .Reserved .Trait)
  , ("unless", .Unless)
  , ("use", .Reserved .Use)
  , ("virtual", .Reserved .Virtual)
  , ("while", .While)
  , ("yield", .Reserved .Yield)
  ]

/-- token.rs, Keyword::lookup: query the keyword table. -/
def Keyword.lookup (keyword : String) : Option Keyword :=
  (KEYWORDS.find? (fun e => e.1 = keyword)).map (fun e => e.2)

end NB.token

namespace NB.lexer

open NB.token

/-! ## lexer/error.rs and lexer/mod.rs -/

/-- lexer/error.rs, enum Error: the shared diagnostic type of the lexer and
the parser (LResult is Except Error). -/
inductive Error where
  | ExpectedToken (st : String) (t : TokenType) (loc : PositionOrSpan)
  | InvalidIdentifier (st : String) (loc : PositionOrSpan)
  | InvalidNumber (st : String) (loc : PositionOrSpan)
  | InvalidString (st : String) (loc : PositionOrSpan)
  | MissingStringBeginning (loc : PositionOrSpan)
  | ReservedKeyword (t : TokenType) (loc : PositionOrSpan)
  | UnexpectedCharacter (st : String) (loc : PositionOrSpan)
  | UnexpectedEOF (loc : PositionOrSpan)
  | UnterminatedString (loc : PositionOrSpan)
  | UnexpectedToken (t : TokenType) (loc : PositionOrSpan)
deriving DecidableEq, Repr

/-- lexer/mod.rs, fn is_newline: line terminators of several operating
systems; note that it includes NUL and U+000B/U+000C. -/
def is_newline (c : Char) : Bool :=
  (0x0A ≤ c.toNat && c.toNat ≤ 0x0D) || c.toNat = 0x85 ||
  c.toNat = 0x2028 || c.toNat = 0x2029 || c.toNat = 0x00

/-- lexer/mod.rs, struct Lexer.  The Rust struct holds a Peekable character
iterator (here the list of not-yet-consumed characters), the current
character, and the position.  The dead field current_token is omitted. -/
structure Lexer where
  current_char : Option Char
  input : List Char
  position : Position
deriving DecidableEq, Repr

/-- lexer/mod.rs, Lexer::read: pull the next character from the iterator,
updating the position.  Moving off a newline character (unless the previous
and current characters form a CRLF pair) bumps the line and resets the
column; the column is then always incremented.  When the iterator is
exhausted nothing but current_char changes. -/
def Lexer.read (l : Lexer) : Option Char × Lexer :=
  match l.input with
  | [] => (none, { l with current_char := none })
  | current :: rest =>
    let pos :=
      match l.current_char with
      | some previous =>
        if is_newline previous && !(previous = '\u000D' && current = '\u000A') then
          { line := l.position.line + 1, column := 0 : Position }
        else l.position
      | none => l.position
    let pos := { pos with column := pos.column + 1 }
    (some current, { current_char := some current, input := rest, position := pos })

/-- lexer/mod.rs, Lexer::new: build the state and advance to the first
character (there is no emptiness assertion in this constructor). -/
def Lexer.new (input : List Char) : Lexer :=
  (Lexer.read { current_char := none, input := input,
                position := { column := 0, line := 1 } }).2

/-- lexer/mod.rs, Lexer::peek: look at the next character without
consuming it. -/
def Lexer.peek (l : Lexer) : Option Char :=
  l.input.head?

/-- itertools peeking_take_while on the raw input iterator: consumes the
matching prefix directly from the iterator, bypassing Lexer::read, so
neither current_char nor the position moves (this is what the Rust
helpers read_identifier / read_number / read_comment do). -/
def peeking_take_while (p : Char → Bool) : List Char → List Char × List Char
  | [] => ([], [])
  | c :: rest =>
    if p c then
      let (taken, remaining) := peeking_take_while p rest
      (c :: taken, remaining)
    else ([], c :: rest)

/-- lexer/mod.rs, Lexer::read_identifier.  The source starts from
current_char.unwrap(); every call site has current_char = some ch, which is
passed explicitly here.  A trailing question mark is taken via read. -/
def Lexer.read_identifier (ch : Char) (l : Lexer) : String × Lexer :=
  let (taken, rest) :=
    peeking_take_while (fun c => char_is_alphabetic c || c = '_') l.input
  let st := String.mk (ch :: taken)
  let l := { l with input := rest }
  match l.peek with
  | some c =>
    if c = '?' then
      let l := (l.read).2
      (st.push c, l)
    else (st, l)
  | none => (st, l)

/-- lexer/mod.rs, Lexer::read_number: the character passed is
current_char.unwrap(); then a run of hexadecimal digits and underscores is
taken straight off the iterator. -/
def Lexer.read_number (ch : Char) (l : Lexer) : String × Lexer :=
  let (taken, rest) :=
    peeking_take_while (fun c => char_is_digit c 16 || c = '_') l.input
  (String.mk (ch :: taken), { l with input := rest })

/-- lexer/mod.rs, the stateful closure of the block-comment branch of
read_comment: take characters while the previous taken character is not
an asterisk and the current one is not a slash. -/
def block_comment_take (last_ch : Char) : List Char → List Char × List Char
  | [] => ([], [])
  | c :: rest =>
    if last_ch ≠ '*' && c ≠ '/' then
      let (taken, remaining) := block_comment_take c rest
      (c :: taken, remaining)
    else ([], c :: rest)

/-- lexer/mod.rs, Lexer::read_comment.  The guard current_char_is slash
selects the line-comment branch (which collects characters while they ARE
newlines; this is the comment bug noted by the spec) and is in fact always
true at the one call site. -/
def Lexer.read_comment (l : Lexer) : String × Lexer :=
  if l.current_char = some '/' then
    let (taken, rest) := peeking_take_while is_newline l.input
    (String.mk taken, { l with input := rest })
  else
    let (taken, rest) := block_comment_take (Char.ofNat 0) l.input
    (String.mk taken, { l with input := rest })

/-- lexer/mod.rs, the while-let loop of Lexer::read_string.  The fuel is an
embedding artifact for the loop; each iteration consumes one input
character, so input.length + 1 fuel never runs out (the fuel-out value
reuses the loop's exhaustion result and is unreachable at the entry
point's fuel). -/
def Lexer.read_string_go : Nat → Lexer → String → Char →
    (Except Error String) × Lexer
  | 0, l, _, _ => (.error (.UnexpectedEOF (.Position l.position)), l)
  | fuel + 1, l, st, previous_ch =>
    match Lexer.read l with
    | (none, l) => (.error (.UnexpectedEOF (.Position l.position)), l)
    | (some current_ch, l) =>
      if is_newline current_ch then
        (.error (.UnterminatedString (.Position l.position)), l)
      else if char_is_control current_ch then
        (.error (.InvalidString st (.Position l.position)), l)
      else
        let st := st.push current_ch
        if previous_ch = '\\' && current_ch = '\\' then
          Lexer.read_string_go fuel l st (Char.ofNat 0)
        else if previous_ch ≠ '\\' && current_ch = '"' then
          (.ok st, l)
        else
          Lexer.read_string_go fuel l st current_ch

/-- lexer/mod.rs, Lexer::read_string: scan until an unescaped double quote,
starting from the opening quote (current_char.unwrap(), passed
explicitly), with previous_ch initialised to NUL. -/
def Lexer.read_string (ch : Char) (l : Lexer) : (Except Error String) × Lexer :=
  Lexer.read_string_go (l.input.length + 1) l (String.mk [ch]) (Char.ofNat 0)

/-- lexer/mod.rs, the whitespace-skipping loop at the top of read_token:
read while the current character is whitespace.  Fuel as above; each
iteration either consumes input or clears current_char. -/
def Lexer.skip_ws_go : Nat → Lexer → Lexer
  | 0, l => l
  | fuel + 1, l =>
    match l.current_char with
    | some ch => if char_is_whitespace ch then Lexer.skip_ws_go fuel (l.read).2 else l
    | none => l

/-- Entry point of the whitespace-skipping loop with sufficient fuel. -/
def Lexer.skip_ws (l : Lexer) : Lexer :=
  Lexer.skip_ws_go (l.input.length + 1) l

/-- The trailing self.read() performed by read_token after building its
result (skipped only by the early return of a string error). -/
def finish_read (r : Except Error Token) (l : Lexer) :
    (Except Error Token) × Lexer :=
  (r, (l.read).2)

/-- lexer/mod.rs, the Some(ch) arm of read_token's dispatch: the match on
the character itself.  Every branch ends with the trailing read, except a
string error, which returns early. -/
def Lexer.read_token_some (ch : Char) (l : Lexer) : (Except Error Token) × Lexer :=
    if ch = '+' then finish_read (.ok ⟨.Plus, .Position l.position⟩) l
    else if ch = '%' then finish_read (.ok ⟨.Modulo, .Position l.position⟩) l
    else if ch = '^' then finish_read (.ok ⟨.Power, .Position l.position⟩) l
    else if ch = '*' then finish_read (.ok ⟨.Multiplication, .Position l.position⟩) l
    else if ch = '-' then
      match l.peek with
      | some c =>
        if c = '>' then
          let begin := l.position
          let l := (l.read).2
          finish_read (.ok ⟨.Arrow, .Span ⟨begin, l.position⟩⟩) l
        else finish_read (.ok ⟨.Minus, .Position l.position⟩) l
      | none => finish_read (.ok ⟨.Minus, .Position l.position⟩) l
    else if ch = '/' then
      match l.peek with
      | some c =>
        if c = '*' then
          let begin := l.position
          let (st, l) := l.read_comment
          finish_read (.ok ⟨.Comment st, .Span ⟨begin, l.position⟩⟩) l
        else finish_read (.ok ⟨.Division, .Position l.position⟩) l
      | none => finish_read (.ok ⟨.Division, .Position l.position⟩) l
    else if ch = '=' then
      match l.peek with
      | some c =>
        if c = '=' then
          let begin := l.position
          let l := (l.read).2
          finish_read (.ok ⟨.EqEq, .Span ⟨begin, l.position⟩⟩) l
        else finish_read (.ok ⟨.Eq, .Position l.position⟩) l
      | none => finish_read (.ok ⟨.Eq, .Position l.position⟩) l
    else if ch = '!' then
      match l.peek with
      | some c =>
        if c = '=' then
          let begin := l.position
          let l := (l.read).2
          finish_read (.ok ⟨.NotEq, .Span ⟨begin, l.position⟩⟩) l
        else finish_read (.ok ⟨.Not, .Position l.position⟩) l
      | none => finish_read (.ok ⟨.Not, .Position l.position⟩) l
    else if ch = '<' then
      match l.peek with
      | some c =>
        if c = '=' then
          let begin := l.position
          let l := (l.read).2
          finish_read (.ok ⟨.LtEq, .Span ⟨begin, l.position⟩⟩) l
        else finish_read (.ok ⟨.Lt, .Position l.position⟩) l
      | none => finish_read (.ok ⟨.Lt, .Position l.position⟩) l
    else if ch = '>' then
      match l.peek with
      | some c =>
        if c = '=' then
          let begin := l.position
          let l := (l.read).2
          finish_read (.ok ⟨.GtEq, .Span ⟨begin, l.position⟩⟩) l
        else finish_read (.ok ⟨.Gt, .Position l.position⟩) l
      | none => finish_read (.ok ⟨.Gt, .Position l.position⟩) l
    else if ch = '|' then
      match l.peek with
      | some c =>
        if c = '|' then
          let begin := l.position
          let l := (l.read).2
          finish_read (.ok ⟨.OrOr, .Span ⟨begin, l.position⟩⟩) l
        else finish_read (.ok ⟨.Or, .Position l.position⟩) l
      | none => finish_read (.ok ⟨.Or, .Position l.position⟩) l
    else if ch = '&' then
      match l.peek with
      | some c =>
        if c = '&' then
          let begin := l.position
          let l := (l.read).2
          finish_read (.ok ⟨.AndAnd, .Span ⟨begin, l.position⟩⟩) l
        else finish_read (.ok ⟨.And, .Position l.position⟩) l
      | none => finish_read (.ok ⟨.And, .Position l.position⟩) l
    else if ch = ',' then finish_read (.ok ⟨.Comma, .Position l.position⟩) l
    else if ch = ':' then finish_read (.ok ⟨.Colon, .Position l.position⟩) l
    else if ch = ';' then finish_read (.ok ⟨.Semicolon, .Position l.position⟩) l
    else if ch = '(' then finish_read (.ok ⟨.Lparen, .Position l.position⟩) l
    else if ch = ')' then finish_read (.ok ⟨.Rparen, .Position l.position⟩) l
    else if ch = '\x7b' then finish_read (.ok ⟨.Lbrace, .Position l.position⟩) l
    else if ch = '\x7d' then finish_read (.ok ⟨.Rbrace, .Position l.position⟩) l
    else if ch = '[' then finish_read (.ok ⟨.Lbracket, .Position l.position⟩) l
    else if ch = ']' then finish_read (.ok ⟨.Rbracket, .Position l.position⟩) l
    else if ch = '_' then finish_read (.ok ⟨.Underscore, .Position l.position⟩) l
    else if ch = '"' then
      let begin := l.position
      match l.read_string ch with
      | (.ok st, l) => finish_read (.ok ⟨.Literal st, .Span ⟨begin, l.position⟩⟩) l
      | (.error e, l) => (.error e, l)
    else if char_is_alphabetic ch then
      let begin := l.position
      let (ident, l) := l.read_identifier ch
      if ident = "true" then
        finish_read (.ok ⟨.Boolean true, .Span ⟨begin, l.position⟩⟩) l
      else if ident = "false" then
        finish_read (.ok ⟨.Boolean false, .Span ⟨begin, l.position⟩⟩) l
      else
        match Keyword.lookup ident with
        | some kw => finish_read (.ok ⟨.Keyword kw, .Span ⟨begin, l.position⟩⟩) l
        | none => finish_read (.ok ⟨.Identifier ident, .Span ⟨begin, l.position⟩⟩) l
    else if char_is_digit ch 10 then
      let begin := l.position
      if ch = '0' then
        match l.peek with
        | some peeked =>
          if peeked = 'b' then
            let (c, l) := match l.read with
                          | (some c, l) => (c, l)
                          | (none, l) => (Char.ofNat 0, l)
            let (st, l) := l.read_number c
            finish_read (.ok ⟨.Number (.Binary st), .Span ⟨begin, l.position⟩⟩) l
          else if peeked = 'o' then
            let (c, l) := match l.read with
                          | (some c, l) => (c, l)
                          | (none, l) => (Char.ofNat 0, l)
            let (st, l) := l.read_number c
            finish_read (.ok ⟨.Number (.Octal st), .Span ⟨begin, l.position⟩⟩) l
          else if peeked = 'x' then
            let (c, l) := match l.read with
                          | (some c, l) => (c, l)
                          | (none, l) => (Char.ofNat 0, l)
            let (st, l) := l.read_number c
            finish_read (.ok ⟨.Number (.Hexadecimal st), .Span ⟨begin, l.position⟩⟩) l
          else
            let (st, l) := l.read_number ch
            finish_read (.ok ⟨.Number (.Decimal st), .Span ⟨begin, l.position⟩⟩) l
        | none =>
          let (st, l) := l.read_number ch
          finish_read (.ok ⟨.Number (.Decimal st), .Span ⟨begin, l.position⟩⟩) l
      else
        let (st, l) := l.read_number ch
        finish_read (.ok ⟨.Number (.Decimal st), .Span ⟨begin, l.position⟩⟩) l
    else finish_read (.ok ⟨.Illegal (String.mk [ch]), .Position l.position⟩) l

/-- lexer/mod.rs, the dispatch of Lexer::read_token after whitespace has
been skipped: EOF on an exhausted current character, otherwise the
character match read_token_some. -/
def Lexer.read_token_core (l : Lexer) : (Except Error Token) × Lexer :=
  match l.current_char with
  | none => finish_read (.ok ⟨.EOF, .Position l.position⟩) l
  | some ch => Lexer.read_token_some ch l

/-- lexer/mod.rs, Lexer::read_token: skip whitespace, then dispatch on the
current character. -/
def Lexer.read_token (l : Lexer) : (Except Error Token) × Lexer :=
  Lexer.read_token_core l.skip_ws

end NB.lexer

namespace NB.num

/-! ## Rust integer / float string conversions used by Parser::parse_number -/

/-- Accumulate digit values left to right in the given radix (exact Int
arithmetic; Rust's stepwise checked arithmetic rejects exactly the values
whose final magnitude is out of range, since the accumulated magnitude is
monotone). -/
def digits_value (radix : Nat) (cs : List Char) : Option Nat :=
  cs.foldl
    (fun acc c =>
      match acc, NB.char_to_digit c radix with
      | some a, some d => some (a * radix + d)
      | _, _ => none)
    (some 0)

/-- Rust i32::/i64::from_str_radix and str::parse for integers: an optional
sign, then one or more digits of the radix, with the final value required
to lie between lo and hi. -/
def from_str_radix (s : String) (radix : Nat) (lo hi : Int) : Option Int :=
  let (negative, ds) :=
    match s.data with
    | '+' :: rest => (false, rest)
    | '-' :: rest => (true, rest)
    | cs => (false, cs)
  if ds.isEmpty then none
  else
    match digits_value radix ds with
    | none => none
    | some n =>
      let v : Int := if negative then -(n : Int) else (n : Int)
      if lo ≤ v && v ≤ hi then some v else none

/-- i32::from_str_radix / str.parse::<i32>. -/
def i32_from_str_radix (s : String) (radix : Nat) : Option Int :=
  from_str_radix s radix (-2147483648) 2147483647

/-- i64::from_str_radix / str.parse::<i64>. -/
def i64_from_str_radix (s : String) (radix : Nat) : Option Int :=
  from_str_radix s radix (-9223372036854775808) 9223372036854775807

/-- ASCII decimal digit test used by the f64 grammar. -/
def is_ascii_dec (c : Char) : Bool := '0' ≤ c && c ≤ '9'

/-- Optional exponent part of the Rust f64 grammar: ('e'|'E') Sign? Digits. -/
def f64_exp_part : List Char → Bool
  | [] => true
  | c :: rest =>
    if c = 'e' || c = 'E' then
      let rest := match rest with
                  | '+' :: r => r
                  | '-' :: r => r
                  | r => r
      !rest.isEmpty && rest.all is_ascii_dec
    else false

/-- ASCII case-insensitive string comparison (for inf / infinity / nan). -/
def ci_eq (cs : List Char) (s : String) : Bool :=
  (String.mk (cs.map Char.toLower)) = s

/-- Acceptance test of Rust's f64 FromStr grammar (str.parse::<f64>):
Sign? ('inf' | 'infinity' | 'nan' | Digits '.'? Digits? Exp? | '.' Digits
Exp?).  Only acceptance is modelled; the floating-point value itself is
never inspected by the parser (it is wrapped opaquely into the AST), and no
claim exercises this decimal-only fallback. -/
def f64_accepts (s : String) : Bool :=
  let cs := match s.data with
            | '+' :: rest => rest
            | '-' :: rest => rest
            | cs => cs
  if ci_eq cs "inf" || ci_eq cs "infinity" || ci_eq cs "nan" then true
  else
    let intPart := cs.takeWhile is_ascii_dec
    let rest := cs.dropWhile is_ascii_dec
    match rest with
    | '.' :: rest2 =>
      let frac := rest2.takeWhile is_ascii_dec
      let rest3 := rest2.dropWhile is_ascii_dec
      (!intPart.isEmpty || !frac.isEmpty) && f64_exp_part rest3
    | _ => !intPart.isEmpty && f64_exp_part rest

end NB.num

namespace NB.ast

open NB.token (Keyword)

/-! ## ast.rs: the AST data model -/

/-- ast.rs, enum Number: the numeric value stored in the AST.  Int holds an
i32, Long an i64 (exact Int values, in range by construction).  Float holds
an f64; the floating-point value is not modelled, only the (underscore
stripped) source text that produced it. -/
inductive Number where
  | Float (raw : String)
  | Int (v : ℤ)
  | Long (v : ℤ)
deriving DecidableEq, Repr

/-- ast.rs, struct Type (bare type name; empty when elided).  `Type` is a
Lean keyword, hence the name Typ. -/
structure Typ where
  name : String
deriving DecidableEq, Repr

/-- ast.rs, struct Variable: a name together with its declared type. -/
structure Variable where
  name : String
  category : Typ
deriving DecidableEq, Repr

mutual
/-- ast.rs, enum Expression (Box is erased in the embedding). -/
inductive Expression where
  | Identifier (name : String)
  | Literal (lit : Literal)
  | FunCall (name : String) (args : List Expression)
  | BinaryExpression (lhs : Expression) (op : BinaryOperator) (rhs : Expression)
  | UnaryExpression (operand : Expression) (op : UnaryOperator)

/-- ast.rs, enum Literal. -/
inductive Literal where
  | Array (elems : List Expression)
  | Number (n : Number)
  | String (st : String)
  | Boolean (b : Bool)

/-- ast.rs, enum BinaryOperator. -/
inductive BinaryOperator where
  | Div | EqEq | Gt | GtEq | Lt | LtEq | Min | Mod | Mul | NE | Plus | Pow

/-- ast.rs, enum UnaryOperator. -/
inductive UnaryOperator where
  | Not
end

/-- ast.rs, TryFrom TokenType for BinaryOperator. -/
def BinaryOperator.try_from : NB.token.TokenType → Option BinaryOperator
  | .Division => some .Div
  | .EqEq => some .EqEq
  | .Gt => some .Gt
  | .GtEq => some .GtEq
  | .Lt => some .Lt
  | .LtEq => some .LtEq
  | .Minus => some .Min
  | .Modulo => some .Mod
  | .Multiplication => some .Mul
  | .NotEq => some .NE
  | .Plus => some .Plus
  | .Power => some .Pow
  | _ => none

/-- ast.rs, TryFrom TokenType for UnaryOperator. -/
def UnaryOperator.try_from : NB.token.TokenType → Option UnaryOperator
  | .Not => some .Not
  | _ => none

/-- ast.rs, struct Block: an ordered sequence of statements (the newtype is
represented by its list). -/
abbrev Block := List

/-- ast.rs, enum Statement.  The FunDeclaration variant carries the fields
of struct FunctionDeclaration inline (identifier, parameters, body,
return_type). -/
inductive Statement where
  | Assignment (v : Variable) (e : Expression)
  | Conditional (k : Keyword) (cond : Option Expression) (body : List Statement)
  | FunDeclaration (identifier : String) (parameters : List Variable)
      (body : List Statement) (return_type : Typ)
  | Loop (k : Keyword) (cond : Option Expression) (body : List Statement)
  | Expression (e : Expression)
  | Return (e : Option Expression)
  | VariableDeclaration (k : Keyword) (v : Variable) (e : Expression)

end NB.ast

namespace NB.parser

open NB.token NB.lexer NB.ast

/-! ## parser/mod.rs: the recursive-descent / Pratt parser -/

/-- parser/mod.rs, LOWEST_PRECEDENCE (u8 minimum). -/
def LOWEST_PRECEDENCE : Nat := 0

/-- parser/mod.rs, HIGHEST_PRECEDENCE (u8 maximum). -/
def HIGHEST_PRECEDENCE : Nat := 255

/-- parser/mod.rs, fn get_precedence over the BINARY_OPERATOR_MAP table;
absent kinds default to LOWEST_PRECEDENCE. -/
def get_precedence (token : Token) : Nat :=
  match token.token_type with
  | .EqEq => 5
  | .OrOr => 5
  | .AndAnd => 5
  | .Not => 10
  | .Plus => 20
  | .Minus => 20
  | .Division => 25
  | .Multiplication => 25
  | .Modulo => 25
  | .Power => 30
  | .Lparen => LOWEST_PRECEDENCE
  | .Rparen => LOWEST_PRECEDENCE
  | _ => LOWEST_PRECEDENCE

/-- parser/mod.rs, fn is_binary_operator: key membership in
BINARY_OPERATOR_MAP (note that Not, Lparen and Rparen are keys too). -/
def is_binary_operator (t : TokenType) : Bool :=
  match t with
  | .EqEq | .OrOr | .AndAnd | .Not | .Plus | .Minus | .Division
  | .Multiplication | .Modulo | .Power | .Lparen | .Rparen => true
  | _ => false

/-- parser/mod.rs, fn is_unary_operator: membership in UNARY_OPERATOR_SET. -/
def is_unary_operator (t : TokenType) : Bool :=
  match t with
  | .Not => true
  | _ => false

/-- Variant index of a TokenType, the image of Rust's mem::discriminant
(payloads ignored; in particular all Keyword tokens share one variant). -/
def TokenType.discriminant : TokenType → Nat
  | .EOF => 0
  | .Underscore => 1
  | .Arrow => 2
  | .Eq => 3
  | .Plus => 4
  | .Minus => 5
  | .Division => 6
  | .Multiplication => 7
  | .Modulo => 8
  | .Power => 9
  | .Not => 10
  | .EqEq => 11
  | .NotEq => 12
  | .Lt => 13
  | .Gt => 14
  | .LtEq => 15
  | .GtEq => 16
  | .Or => 17
  | .And => 18
  | .OrOr => 19
  | .AndAnd => 20
  | .Comma => 21
  | .Colon => 22
  | .Semicolon => 23
  | .Lparen => 24
  | .Rparen => 25
  | .Lbracket => 26
  | .Rbracket => 27
  | .Lbrace => 28
  | .Rbrace => 29
  | .Illegal _ => 30
  | .Identifier _ => 31
  | .Comment _ => 32
  | .Keyword _ => 33
  | .Boolean _ => 34
  | .Literal _ => 35
  | .Number _ => 36

/-- parser/mod.rs, fn is_same_tokentype: discriminant comparison. -/
def is_same_tokentype (lhs rhs : TokenType) : Bool :=
  TokenType.discriminant lhs = TokenType.discriminant rhs

/-- parser/mod.rs, struct Parser: lexer, one token of look-behind, one of
look-ahead, and the diagnostic accumulator. -/
structure Parser where
  lexer : Lexer
  cur_token : Option Token
  peek_token : Option Token
  errors : List Error
deriving DecidableEq, Repr

/-- Result channel of a parsing function: a value, a propagated diagnostic
(Rust's question-mark operator on LResult), a Rust panic (unwrap of None),
or exhaustion of the embedding's fuel. -/
inductive PRes (α : Type) where
  | ok (a : α)
  | err (e : Error)
  | panicked
  | noFuel

/-- State-threading function space of the parser methods. -/
def PM (α : Type) : Type := Parser → PRes α × Parser

instance : Monad PM where
  pure a := fun s => (.ok a, s)
  bind m f := fun s =>
    match m s with
    | (.ok a, s) => f a s
    | (.err e, s) => (.err e, s)
    | (.panicked, s) => (.panicked, s)
    | (.noFuel, s) => (.noFuel, s)

/-- Read the whole parser state (for the pure field accesses of the Rust
methods). -/
def getP : PM Parser := fun s => (.ok s, s)

/-- Return a diagnostic (the Err branch of LResult). -/
def errP (e : Error) : PM α := fun s => (.err e, s)

/-- A Rust panic: unwrap on None. -/
def panickedP : PM α := fun s => (.panicked, s)

/-- Fuel exhaustion of the embedding. -/
def noFuelP : PM α := fun s => (.noFuel, s)

/-- Lift an LResult value into the parser monad. -/
def liftE : Except Error α → PM α
  | .ok a => fun s => (.ok a, s)
  | .error e => fun s => (.err e, s)

/-- parser/mod.rs, Parser::advance_token: shift peek into cur, then pull the
next token from the lexer into peek; EOF becomes None, Illegal becomes None
plus an UnexpectedCharacter diagnostic, a lexer error becomes None plus
that diagnostic. -/
def Parser.advance_token (s : Parser) : Parser :=
  let cur := s.peek_token
  match s.lexer.read_token with
  | (.ok token, lx) =>
    match token.token_type with
    | .EOF => { lexer := lx, cur_token := cur, peek_token := none, errors := s.errors }
    | .Illegal st =>
      { lexer := lx, cur_token := cur, peek_token := none,
        errors := s.errors ++ [.UnexpectedCharacter st token.location] }
    | _ => { lexer := lx, cur_token := cur, peek_token := some token, errors := s.errors }
  | (.error e, lx) =>
    { lexer := lx, cur_token := cur, peek_token := none, errors := s.errors ++ [e] }

/-- Parser::advance_token as a monadic action. -/
def advanceP : PM Unit := fun s => (.ok (), s.advance_token)

/-- parser/mod.rs, Parser::cur_token(): take the current token and advance. -/
def cur_token_take : PM (Option Token) := fun s => (.ok s.cur_token, s.advance_token)

/-- self.cur_token().unwrap(): take the current token and advance,
panicking when it is None. -/
def cur_token_unwrap : PM Token := fun s =>
  match s.cur_token with
  | some t => (.ok t, s.advance_token)
  | none => (.panicked, s.advance_token)

/-- parser/mod.rs, Parser::cur_precedence. -/
def Parser.cur_precedence (s : Parser) : Nat :=
  match s.cur_token with
  | some t => get_precedence t
  | none => 0

/-- parser/mod.rs, Parser::peek_precedence. -/
def Parser.peek_precedence (s : Parser) : Nat :=
  match s.peek_token with
  | some t => get_precedence t
  | none => 0

/-- parser/mod.rs, Parser::cur_token_is (discriminant comparison). -/
def Parser.cur_token_is (s : Parser) (kind : TokenType) : Bool :=
  match s.cur_token with
  | some token => is_same_tokentype token.token_type kind
  | none => false

/-- parser/mod.rs, Parser::peek_token_is. -/
def Parser.peek_token_is (s : Parser) (kind : TokenType) : Bool :=
  match s.peek_token with
  | some token => is_same_tokentype token.token_type kind
  | none => false

/-- parser/mod.rs, Parser::expect_token: Ok on a discriminant match of the
current token, otherwise an UnexpectedEOF diagnostic carrying the lexer
position (this is what the source produces, despite its doc comment
promising ExpectedToken). -/
def Parser.expect_token (s : Parser) (kind : TokenType) : Except Error Unit :=
  match s.cur_token with
  | some token =>
    if is_same_tokentype token.token_type kind then .ok ()
    else .error (.UnexpectedEOF (.Position s.lexer.position))
  | none => .error (.UnexpectedEOF (.Position s.lexer.position))

/-- Parser::expect_token as a monadic action (the question-mark call sites). -/
def expectTokenP (kind : TokenType) : PM Unit := fun s =>
  (match s.expect_token kind with
   | .ok () => .ok ()
   | .error e => .err e, s)

/-- parser/mod.rs, Parser::expect_ident: expect_token with an empty
Identifier payload (any identifier matches by discriminant). -/
def expectIdentP : PM Unit := expectTokenP (.Identifier "")

/-- parser/mod.rs, Parser::parse_identifier. -/
def parse_identifier : PM String := do
  let token ← cur_token_unwrap
  match token.token_type with
  | .Identifier st => pure st
  | _ => errP (.UnexpectedToken token.token_type token.location)

/-- parser/mod.rs, Parser::parse_type. -/
def parse_type : PM Typ := do
  let token ← cur_token_unwrap
  match token.token_type with
  | .Identifier name => pure (Typ.mk name)
  | _ => errP (.UnexpectedToken token.token_type token.location)

/-- parser/mod.rs, Parser::parse_boolean. -/
def parse_boolean : PM ast.Literal := do
  let token ← cur_token_unwrap
  match token.token_type with
  | .Boolean b => pure (Literal.Boolean b)
  | _ => errP (.UnexpectedToken token.token_type token.location)

/-- parser/mod.rs, Parser::parse_string. -/
def parse_string : PM ast.Literal := do
  let token ← cur_token_unwrap
  match token.token_type with
  | .Literal st => pure (Literal.String st)
  | _ => errP (.UnexpectedToken token.token_type token.location)

/-- parser/mod.rs, the nested fn parse_with_base of Parser::parse_number:
strip underscores, then try i32 and i64 in the given base; total failure is
an InvalidNumber diagnostic carrying the stripped text. -/
def parse_with_base (num : String) (base : Nat) (location : PositionOrSpan) :
    Except Error ast.Number :=
  let num := String.mk (num.data.filter (fun c => c ≠ '_'))
  match NB.num.i32_from_str_radix num base with
  | some v => .ok (.Int v)
  | none =>
    match NB.num.i64_from_str_radix num base with
    | some v => .ok (.Long v)
    | none => .error (.InvalidNumber num location)

/-- parser/mod.rs, Parser::parse_number: dispatch on the base tag; decimal
additionally falls back to f64. -/
def parse_number : PM ast.Number := do
  let token ← cur_token_unwrap
  match token.token_type with
  | .Number number =>
    match number with
    | .Binary num => liftE (parse_with_base num 2 token.location)
    | .Octal num => liftE (parse_with_base num 8 token.location)
    | .Hexadecimal num => liftE (parse_with_base num 16 token.location)
    | .Decimal num =>
      let num := String.mk (num.data.filter (fun c => c ≠ '_'))
      match NB.num.i32_from_str_radix num 10 with
      | some v => pure (.Int v)
      | none =>
        match NB.num.i64_from_str_radix num 10 with
        | some v => pure (.Long v)
        | none =>
          if NB.num.f64_accepts num then pure (.Float num)
          else errP (.InvalidNumber num token.location)
  | _ => errP (.UnexpectedToken token.token_type token.location)

mutual

/-- parser/mod.rs, Parser::parse_statement: dispatch on the current token
(unwrap panics on None); reserved keywords raise ReservedKeyword. -/
def parse_statement : Nat → PM Statement
  | 0 => noFuelP
  | fuel + 1 => fun s =>
    (match s.cur_token with
     | none => panickedP
     | some t =>
       match t.token_type with
       | .Keyword .Let | .Keyword .Const => parse_variable_declaration fuel
       | .Keyword .Fun => parse_function_declaration fuel
       | .Keyword .Return => parse_return fuel
       | .Keyword .Unless | .Keyword .If => parse_conditional fuel
       | .Keyword .While => parse_while_loop fuel
       | .Keyword (.Reserved _) => do
         let token ← cur_token_unwrap
         errP (.ReservedKeyword token.token_type token.location)
       | _ => parse_expression_statement fuel) s

/-- parser/mod.rs, Parser::parse_variable_declaration.  Note what the source
does: after the variable (and optional type, whose leading colon is never
consumed before parse_type runs) it parses the value expression directly;
no Eq token is ever consumed. -/
def parse_variable_declaration : Nat → PM Statement
  | 0 => noFuelP
  | fuel + 1 => do
    let token ← cur_token_unwrap
    let declaration_keyword ←
      match token.token_type with
      | .Keyword .Let => pure Keyword.Let
      | .Keyword .Const => pure Keyword.Const
      | _ => errP (.UnexpectedToken token.token_type token.location)
    expectIdentP
    let ident ← parse_identifier
    let s ← getP
    let category ←
      if s.cur_token_is .Colon then parse_type
      else pure (Typ.mk "")
    let var := Variable.mk ident category
    let s ← getP
    if s.cur_token.isNone then
      errP (.UnexpectedEOF (.Position s.lexer.position))
    else do
      let value ← parse_expression fuel LOWEST_PRECEDENCE
      pure (.VariableDeclaration declaration_keyword var value)

/-- parser/mod.rs, Parser::parse_function_declaration (the source expects a
Rbrace before parsing the body block). -/
def parse_function_declaration : Nat → PM Statement
  | 0 => noFuelP
  | fuel + 1 => do
    advanceP
    let s ← getP
    let identifier ←
      match s.cur_token with
      | some t =>
        if is_same_tokentype t.token_type (.Identifier "") then parse_identifier
        else errP (.UnexpectedEOF (.Position s.lexer.position))
      | none => errP (.UnexpectedEOF (.Position s.lexer.position))
    expectTokenP .Lparen
    advanceP
    let parameters ← parse_function_prototype fuel
    let s ← getP
    let return_type ←
      match s.cur_token with
      | some t =>
        match t.token_type with
        | .Arrow => do
          advanceP
          expectIdentP
          let typ ← parse_identifier
          pure (Typ.mk typ)
        | _ => do
          advanceP
          pure (Typ.mk "")
      | none => errP (.UnexpectedEOF (.Position s.lexer.position))
    expectTokenP .Rbrace
    let body ← parse_statement_block fuel
    pure (.FunDeclaration identifier parameters body return_type)

/-- parser/mod.rs, Parser::parse_function_prototype (the while loop is
parse_function_prototype_go; on exit it consumes the closing Rparen). -/
def parse_function_prototype : Nat → PM (List Variable)
  | 0 => noFuelP
  | fuel + 1 => parse_function_prototype_go fuel []

/-- The while loop of parse_function_prototype.  The type position is read
twice: once by the consuming cur_token() match and once by parse_type. -/
def parse_function_prototype_go : Nat → List Variable → PM (List Variable)
  | 0, _ => noFuelP
  | fuel + 1, prototype => do
    let s ← getP
    if s.cur_token_is .Rparen then do
      advanceP
      pure prototype
    else do
      let s ← getP
      let identifier ←
        match s.cur_token with
        | some t =>
          match t.token_type with
          | .Identifier _ => parse_identifier
          | _ => do
            let token ← cur_token_unwrap
            errP (.ExpectedToken "identifier" token.token_type token.location)
        | none => errP (.UnexpectedEOF (.Position s.lexer.position))
      expectTokenP .Colon
      advanceP
      let token? ← cur_token_take
      let typ ←
        match token? with
        | some token =>
          match token.token_type with
          | .Identifier _ => parse_type
          | _ => errP (.ExpectedToken "type" token.token_type token.location)
        | none => do
          let s ← getP
          errP (.UnexpectedEOF (.Position s.lexer.position))
      parse_function_prototype_go fuel (prototype ++ [Variable.mk identifier typ])

/-- parser/mod.rs, Parser::parse_statement_block: consume an optional
Lbrace, then statements until a Rbrace. -/
def parse_statement_block : Nat → PM (List Statement)
  | 0 => noFuelP
  | fuel + 1 => do
    let s ← getP
    if s.cur_token_is .Lbrace then advanceP else pure ()
    parse_statement_block_go fuel []

/-- The while loop of parse_statement_block; on exit it consumes the
closing Rbrace. -/
def parse_statement_block_go : Nat → List Statement → PM (List Statement)
  | 0, _ => noFuelP
  | fuel + 1, block => do
    let s ← getP
    if s.cur_token_is .Rbrace then do
      advanceP
      pure block
    else do
      let stmt ← parse_statement fuel
      parse_statement_block_go fuel (block ++ [stmt])

/-- parser/mod.rs, Parser::parse_expression_statement: an expression
followed by a mandatory semicolon. -/
def parse_expression_statement : Nat → PM Statement
  | 0 => noFuelP
  | fuel + 1 => do
    let expression ← parse_expression fuel LOWEST_PRECEDENCE
    expectTokenP .Semicolon
    advanceP
    pure (.Expression expression)

/-- parser/mod.rs, Parser::parse_return (the leading expect_token compares
by discriminant, so any keyword satisfies it). -/
def parse_return : Nat → PM Statement
  | 0 => noFuelP
  | fuel + 1 => do
    expectTokenP (.Keyword .Return)
    advanceP
    let s ← getP
    let return_value ←
      if s.cur_token_is .Semicolon then do
        advanceP
        pure none
      else do
        let expr ← parse_expression fuel LOWEST_PRECEDENCE
        let s ← getP
        if s.cur_token_is .Semicolon then advanceP else pure ()
        pure (some expr)
    pure (.Return return_value)

/-- parser/mod.rs, Parser::parse_conditional. -/
def parse_conditional : Nat → PM Statement
  | 0 => noFuelP
  | fuel + 1 => do
    let s ← getP
    match s.cur_token with
    | none => panickedP
    | some t => do
      let keyword ←
        match t.token_type with
        | .Keyword .If => pure Keyword.If
        | .Keyword .Else =>
          if s.peek_token_is (.Keyword .If) then pure Keyword.Elseif
          else pure Keyword.Else
        | .Keyword .Unless => pure Keyword.Unless
        | _ => do
          let tok ← cur_token_unwrap
          errP (.UnexpectedToken tok.token_type tok.location)
      advanceP
      let condition ←
        match keyword with
        | Keyword.Else => pure none
        | _ => do
          let e ← parse_expression fuel LOWEST_PRECEDENCE
          pure (some e)
      expectTokenP .Lbrace
      let block ← parse_statement_block fuel
      pure (.Conditional keyword condition block)

/-- parser/mod.rs, Parser::parse_while_loop. -/
def parse_while_loop : Nat → PM Statement
  | 0 => noFuelP
  | fuel + 1 => do
    advanceP
    let condition ← parse_expression fuel LOWEST_PRECEDENCE
    expectTokenP .Lbrace
    let block ← parse_statement_block fuel
    pure (.Loop Keyword.While (some condition) block)

/-- parser/mod.rs, Parser::parse_expression: the prefix phase, followed by
the infix loop parse_expression_go. -/
def parse_expression : Nat → Nat → PM Expression
  | 0, _ => noFuelP
  | fuel + 1, precedence => do
    let s ← getP
    let lhs ←
      match s.cur_token with
      | some cur_token =>
        match cur_token.token_type with
        | .Literal _ | .Number _ | .Boolean _ | .Lbracket => do
          let lit ← parse_literal fuel
          pure (Expression.Literal lit)
        | .Lparen => parse_paren_expression fuel
        | .Identifier _ =>
          if s.peek_token_is .Lparen then parse_call_expression fuel
          else do
            let id ← parse_identifier
            pure (Expression.Identifier id)
        | t =>
          if is_unary_operator t then parse_prefix_expression fuel
          else do
            let token ← cur_token_unwrap
            errP (.UnexpectedToken token.token_type token.location)
      | none => errP (.UnexpectedEOF (.Position s.lexer.position))
    parse_expression_go fuel precedence lhs

/-- parser/mod.rs, the infix while loop of Parser::parse_expression: it
runs while the current token is not a semicolon AND the precedence bound is
below the precedence of the PEEK token (the token after the operator). -/
def parse_expression_go : Nat → Nat → Expression → PM Expression
  | 0, _, _ => noFuelP
  | fuel + 1, precedence, lhs => do
    let s ← getP
    if !(s.cur_token_is .Semicolon) && precedence < s.peek_precedence then
      match s.cur_token with
      | some cur_token =>
        if is_binary_operator cur_token.token_type then do
          let lhs ← parse_binary_expression fuel lhs
          parse_expression_go fuel precedence lhs
        else do
          let token ← cur_token_unwrap
          errP (.ExpectedToken "opérateur binaire" token.token_type token.location)
      | none => errP (.UnexpectedEOF (.Position s.lexer.position))
    else pure lhs

/-- parser/mod.rs, Parser::parse_paren_expression.  The expect_token call's
result is bound and dropped, exactly as the source discards it (line 575
carries no question mark), and the token at the closing position is then
consumed unconditionally. -/
def parse_paren_expression : Nat → PM Expression
  | 0 => noFuelP
  | fuel + 1 => do
    advanceP
    let expr ← parse_expression fuel LOWEST_PRECEDENCE
    let s ← getP
    let _discarded := s.expect_token .Rparen
    advanceP
    pure expr

/-- parser/mod.rs, Parser::parse_prefix_expression (try_into().unwrap() on
the operator panics when the token is not a unary operator). -/
def parse_prefix_expression : Nat → PM Expression
  | 0 => noFuelP
  | fuel + 1 => do
    let tok ← cur_token_unwrap
    let operator ←
      match UnaryOperator.try_from tok.token_type with
      | some op => pure op
      | none => panickedP
    let expr ← parse_expression fuel LOWEST_PRECEDENCE
    pure (.UnaryExpression expr operator)

/-- parser/mod.rs, Parser::parse_binary_expression: record the current
operator's precedence, consume the operator, parse the right operand at
that precedence. -/
def parse_binary_expression : Nat → Expression → PM Expression
  | 0, _ => noFuelP
  | fuel + 1, lhs => do
    let s ← getP
    let precedence := s.cur_precedence
    let tok ← cur_token_unwrap
    let operator ←
      match BinaryOperator.try_from tok.token_type with
      | some op => pure op
      | none => panickedP
    let rhs ← parse_expression fuel precedence
    pure (.BinaryExpression lhs operator rhs)

/-- parser/mod.rs, Parser::parse_call_expression. -/
def parse_call_expression : Nat → PM Expression
  | 0 => noFuelP
  | fuel + 1 => do
    let ident ← parse_identifier
    let token ← cur_token_unwrap
    match token.token_type with
    | .Lparen => do
      let args ← parse_expression_list fuel .Rparen
      pure (.FunCall ident args)
    | _ => errP (.UnexpectedToken token.token_type token.location)

/-- parser/mod.rs, Parser::parse_expression_list: an immediate terminator
yields the empty list; otherwise the while loop parse_expression_list_go. -/
def parse_expression_list : Nat → TokenType → PM (List Expression)
  | 0, _ => noFuelP
  | fuel + 1, terminator => do
    let s ← getP
    if s.cur_token_is terminator then do
      advanceP
      pure []
    else parse_expression_list_go fuel terminator []

/-- The while loop of parse_expression_list: each expression must be
followed by a Comma (checked by expect_token before the element is pushed);
on exit the terminator is consumed. -/
def parse_expression_list_go : Nat → TokenType → List Expression → PM (List Expression)
  | 0, _, _ => noFuelP
  | fuel + 1, terminator, expressions => do
    let s ← getP
    if s.cur_token_is terminator then do
      advanceP
      pure expressions
    else do
      let expr ← parse_expression fuel LOWEST_PRECEDENCE
      expectTokenP .Comma
      advanceP
      parse_expression_list_go fuel terminator (expressions ++ [expr])

/-- parser/mod.rs, Parser::parse_literal. -/
def parse_literal : Nat → PM ast.Literal
  | 0 => noFuelP
  | fuel + 1 => do
    let s ← getP
    match s.cur_token with
    | none => panickedP
    | some t =>
      match t.token_type with
      | .Boolean _ => parse_boolean
      | .Literal _ => parse_string
      | .Number _ => do
        let n ← parse_number
        pure (Literal.Number n)
      | .Lbracket => parse_array fuel
      | _ => do
        let tok ← cur_token_unwrap
        errP (.UnexpectedToken tok.token_type tok.location)

/-- parser/mod.rs, Parser::parse_array. -/
def parse_array : Nat → PM ast.Literal
  | 0 => noFuelP
  | fuel + 1 => do
    let token ← cur_token_unwrap
    match token.token_type with
    | .Lbracket => do
      let elems ← parse_expression_list fuel .Rbracket
      pure (Literal.Array elems)
    | _ => errP (.UnexpectedToken token.token_type token.location)

end

/-- Outcome of Parser::parse: the Program, the diagnostic list, a Rust
panic, or fuel exhaustion of the embedding. -/
inductive ParseOutcome where
  | prog (statements : List Statement)
  | errs (errors : List Error)
  | panicked
  | noFuel

/-- parser/mod.rs, the statement loop of Parser::parse: while a current
token exists, parse a statement, pushing the result into the program or
the error into the accumulator, then advance; at the end the error
accumulator decides between the program and the diagnostics. -/
def parse_go : Nat → List Statement → Parser → ParseOutcome
  | 0, _, _ => .noFuel
  | fuel + 1, program, s =>
    match s.cur_token with
    | some _ =>
      match parse_statement fuel s with
      | (.ok stmt, s) => parse_go fuel (program ++ [stmt]) s.advance_token
      | (.err e, s) =>
        parse_go fuel program ({ s with errors := s.errors ++ [e] }).advance_token
      | (.panicked, _) => .panicked
      | (.noFuel, _) => .noFuel
    | none => if s.errors.isEmpty then .prog program else .errs s.errors

/-- parser/mod.rs, Parser::new. -/
def Parser.new (lexer : Lexer) : Parser :=
  { lexer := lexer, cur_token := none, peek_token := none, errors := [] }

/-- parser/mod.rs, Parser::from_source. -/
def Parser.from_source (input : String) : Parser :=
  Parser.new (Lexer.new input.data)

/-- Fuel budget used to run parse on a given input; generous linear bound,
and every concrete run below is checked not to exhaust it (the outcome is
never the noFuel marker). -/
def parse_fuel (input : String) : Nat := input.data.length * 8 + 64

/-- parser/mod.rs, Parser::parse: prime cur and peek with two advances and
run the statement loop. -/
def parse (input : String) : ParseOutcome :=
  let s := (Parser.from_source input).advance_token.advance_token
  parse_go (parse_fuel input) [] s

namespace NB.lexer

open NB.token

/-! ## Claim-side definitions and observation harnesses (lexer) -/

/-- Iterated Lexer::read: consume n characters one at a time (the shape of
the repository's own position tests, which call read in a loop). -/
def Lexer.read_n : Nat → Lexer → Lexer
  | 0, l => l
  | n + 1, l => Lexer.read_n n (l.read).2

/-- Iterated Lexer::read_token: the state after n further token reads. -/
def read_token_iter : Nat → Lexer → Lexer
  | 0, l => l
  | n + 1, l => read_token_iter n (l.read_token).2

/-- The four terminating outcomes of read_string named by claim C5, plus a
fifth marker for any other diagnostic (the claim implies read_string never
produces one). -/
inductive StrOutcome where
  | success
  | unterminated
  | invalid
  | eofExhausted
  | other
deriving DecidableEq, Repr

/-- Classify a read_string result by its outcome. -/
def string_outcome_of : Except Error String → StrOutcome
  | .ok _ => .success
  | .error (.UnterminatedString _) => .unterminated
  | .error (.InvalidString _ _) => .invalid
  | .error (.UnexpectedEOF _) => .eofExhausted
  | .error _ => .other

/-- Claim C5 side, written from the claim's words: scan the characters after
the opening quote and classify by the first terminating character: a
newline is UnterminatedString; a (non-newline) control character is
InvalidString; an unescaped double quote ends the literal; exhaustion is
UnexpectedEOF.  Escaping is textual: a backslash escapes the character
after it, and a backslash following a backslash cancels (the escape state
resets), so the second backslash does not escape a subsequent quote. -/
def string_scan : Char → List Char → StrOutcome
  | _, [] => .eofExhausted
  | previous, c :: rest =>
    if is_newline c then .unterminated
    else if char_is_control c then .invalid
    else if previous ≠ '\\' && c = '"' then .success
    else string_scan (if previous = '\\' && c = '\\' then Char.ofNat 0 else c) rest

end NB.lexer

namespace NB.parser

open NB.token NB.lexer NB.ast

/-! ## Claim-side definitions and observation harnesses (parser) -/

/-- Claim C10 side, written from the claim's words: after the inner
expression of a parenthesized expression, the parser consumes the token at
the closing position unconditionally, without verifying that it is a right
parenthesis and without recording any diagnostic. -/
def parse_paren_claim : Nat → PM Expression
  | 0 => noFuelP
  | fuel + 1 => do
    advanceP
    let expr ← parse_expression fuel LOWEST_PRECEDENCE
    advanceP
    pure expr

/-- The reserved keywords enumerated by claim C8, as source strings. -/
def reserved_keywords_claim : List String :=
  [ "alias", "array", "break", "case", "class", "continue", "do", "export"
  , "final", "import", "in", "macro", "of", "override", "private"
  , "protected", "pub", "public", "pure", "static", "struct", "switch"
  , "this", "trait", "use", "virtual", "yield" ]

/-- Claim C8's check on one input: parse returns Err whose diagnostic list
is exactly one element, of kind ReservedKeyword. -/
def is_single_reserved_keyword_diag (input : String) : Bool :=
  match parse input with
  | .errs [.ReservedKeyword _ _] => true
  | _ => false

end NB.parser

namespace NB.lexer

open NB.token

/-! ## Helper lemmas about the lexer -/

/-- Lexer::read keeps the Peekable-iterator invariant: an exhausted current
character only arises with an exhausted iterator. -/
theorem read_preserves_inv (l : Lexer)
    (h : l.current_char = none → l.input = []) :
    ((l.read).2.current_char = none → (l.read).2.input = []) := by
  cases hi : l.input with
  | nil => simp [Lexer.read, hi]
  | cons c rest => simp [Lexer.read, hi]

/-- The whitespace-skipping loop keeps the iterator invariant. -/
theorem skip_ws_go_preserves_inv :
    ∀ (fuel : Nat) (l : Lexer),
    (l.current_char = none → l.input = []) →
    ((Lexer.skip_ws_go fuel l).current_char = none →
      (Lexer.skip_ws_go fuel l).input = []) := by
  intro fuel
  induction fuel with
  | zero => intro l h; simpa [Lexer.skip_ws_go] using h
  | succ f ih =>
    intro l h
    rw [Lexer.skip_ws_go]
    match hcc : l.current_char with
    | none => simpa [hcc] using h
    | some ch =>
      simp only [hcc]
      by_cases hws : char_is_whitespace ch
      · simp only [hws, if_true]
        exact ih _ (read_preserves_inv l h)
      · simp [hws, hcc]

/-- Lexer::skip_ws keeps the iterator invariant. -/
theorem skip_ws_preserves_inv (l : Lexer)
    (h : l.current_char = none → l.input = []) :
    ((l.skip_ws).current_char = none → (l.skip_ws).input = []) :=
  skip_ws_go_preserves_inv _ l h

set_option maxHeartbeats 1600000 in
/-- The character dispatch of read_token (its Some arm) never produces a
token of kind EOF: every branch builds some other kind or a string error.
The proof prunes the dispatch branch by branch. -/
theorem some_not_eof (ch : Char) (l : Lexer) (t : Token)
    (h : (Lexer.read_token_some ch l).1 = .ok t) :
    t.token_type ≠ .EOF := by
  intro ht
  rw [Lexer.read_token_some] at h
  by_cases e0 : ch = '+'
  · rw [if_pos e0] at h
    repeat' split at h
    all_goals
      first
      | exact Except.noConfusion h
      | (injection h with h2
         rw [← h2] at ht
         exact TokenType.noConfusion ht)
  rw [if_neg e0] at h
  by_cases e1 : ch = '%'
  · rw [if_pos e1] at h
    repeat' split at h
    all_goals
      first
      | exact Except.noConfusion h
      | (injection h with h2
         rw [← h2] at ht
         exact TokenType.noConfusion ht)
  rw [if_neg e1] at h
  by_cases e2 : ch = '^'
  · rw [if_pos e2] at h
    repeat' split at h
    all_goals
      first
      | exact Except.noConfusion h
      | (injection h with h2
         rw [← h2] at ht
         exact TokenType.noConfusion ht)
  rw [if_neg e2] at h
  by_cases e3 : ch = '*'
  · rw [if_pos e3] at h
    repeat' split at h
    all_goals
      first
      | exact Except.noConfusion h
      | (injection h with h2
         rw [← h2] at ht
         exact TokenType.noConfusion ht)
  rw [if_neg e3] at h
  by_cases e4 : ch = '-'
  · rw [if_pos e4] at h
    repeat' split at h
    all_goals
      first
      | exact Except.noConfusion h
      | (injection h with h2
         rw [← h2] at ht
         exact TokenType.noConfusion ht)
  rw [if_neg e4] at h
  by_cases e5 : ch = '/'
  · rw [if_pos e5] at h
    repeat' split at h
    all_goals
      first
      | exact Except.noConfusion h
      | (injection h with h2
         rw [← h2] at ht
         exact TokenType.noConfusion ht)
  rw [if_neg e5] at h
  by_cases e6 : ch = '='
  · rw [if_pos e6] at h
    repeat' split at h
    all_goals
      first
      | exact Except.noConfusion h
      | (injection h with h2
         rw [← h2] at ht
         exact TokenType.noConfusion ht)
  rw [if_neg e6] at h
  by_cases e7 : ch = '!'
  · rw [if_pos e7] at h
    repeat' split at h
    all_goals
      first
      | exact Except.noConfusion h
      | (injection h with h2
         rw [← h2] at ht
         exact TokenType.noConfusion ht)
  rw [if_neg e7] at h
  by_cases e8 : ch = '<'
  · rw [if_pos e8] at h
    repeat' split at h
    all_goals
      first
      | exact Except.noConfusion h
      | (injection h with h2
         rw [← h2] at ht
         exact TokenType.noConfusion ht)
  rw [if_neg e8] at h
  by_cases e9 : ch = '>'
  · rw [if_pos e9] at h
    repeat' split at h
    all_goals
      first
      | exact Except.noConfusion h
      | (injection h with h2
         rw [← h2] at ht
         exact TokenType.noConfusion ht)
  rw [if_neg e9] at h
  by_cases e10 : ch = '|'
  · rw [if_pos e10] at h
    repeat' split at h
    all_goals
      first
      | exact Except.noConfusion h
      | (injection h with h2
         rw [← h2] at ht
         exact TokenType.noConfusion ht)
  rw [if_neg e10] at h
  by_cases e11 : ch = '&'
  · rw [if_pos e11] at h
    repeat' split at h
    all_goals
      first
      | exact Except.noConfusion h
      | (injection h with h2
         rw [← h2] at ht
         exact TokenType.noConfusion ht)
  rw [if_neg e11] at h
  by_cases e12 : ch = ','
  · rw [if_pos e12] at h
    repeat' split at h
    all_goals
      first
      | exact Except.noConfusion h
      | (injection h with h2
         rw [← h2] at ht
         exact TokenType.noConfusion ht)
  rw [if_neg e12] at h
  by_cases e13 : ch = ':'
  · rw [if_pos e13] at h
    repeat' split at h
    all_goals
      first
      | exact Except.noConfusion h
      | (injection h with h2
         rw [← h2] at ht
         exact TokenType.noConfusion ht)
  rw [if_neg e13] at h
  by_cases e14 : ch = ';'
  · rw [if_pos e14] at h
    repeat' split at h
    all_goals
      first
      | exact Except.noConfusion h
      | (injection h with h2
         rw [← h2] at ht
         exact TokenType.noConfusion ht)
  rw [if_neg e14] at h
  by_cases e15 : ch = '('
  · rw [if_pos e15] at h
    repeat' split at h
    all_goals
      first
      | exact Except.noConfusion h
      | (injection h with h2
         rw [← h2] at ht
         exact TokenType.noConfusion ht)
  rw [if_neg e15] at h
  by_cases e16 : ch = ')'
  · rw [if_pos e16] at h
    repeat' split at h
    all_goals
      first
      | exact Except.noConfusion h
      | (injection h with h2
         rw [← h2] at ht
         exact TokenType.noConfusion ht)
  rw [if_neg e16] at h
  by_cases e17 : ch = '\x7b'
  · rw [if_pos e17] at h
    repeat' split at h
    all_goals
      first
      | exact Except.noConfusion h
      | (injection h with h2
         rw [← h2] at ht
         exact TokenType.noConfusion ht)
  rw [if_neg e17] at h
  by_cases e18 : ch = '\x7d'
  · rw [if_pos e18] at h
    repeat' split at h
    all_goals
      first
      | exact Except.noConfusion h
      | (injection h with h2
         rw [← h2] at ht
         exact TokenType.noConfusion ht)
  rw [if_neg e18] at h
  by_cases e19 : ch = '['
  · rw [if_pos e19] at h
    repeat' split at h
    all_goals
      first
      | exact Except.noConfusion h
      | (injection h with h2
         rw [← h2] at ht
         exact TokenType.noConfusion ht)
  rw [if_neg e19] at h
  by_cases e20 : ch = ']'
  · rw [if_pos e20] at h
    repeat' split at h
    all_goals
      first
      | exact Except.noConfusion h
      | (injection h with h2
         rw [← h2] at ht
         exact TokenType.noConfusion ht)
  rw [if_neg e20] at h
  by_cases e21 : ch = '_'
  · rw [if_pos e21] at h
    repeat' split at h
    all_goals
      first
      | exact Except.noConfusion h
      | (injection h with h2
         rw [← h2] at ht
         exact TokenType.noConfusion ht)
  rw [if_neg e21] at h
  by_cases e22 : ch = '"'
  · rw [if_pos e22] at h
    repeat' split at h
    all_goals
      first
      | exact Except.noConfusion h
      | (injection h with h2
         rw [← h2] at ht
         exact TokenType.noConfusion ht)
  rw [if_neg e22] at h
  by_cases e23 : char_is_alphabetic ch = true
  · rw [if_pos e23] at h
    repeat' split at h
    all_goals
      first
      | exact Except.noConfusion h
      | (injection h with h2
         rw [← h2] at ht
         exact TokenType.noConfusion ht)
  rw [if_neg e23] at h
  by_cases e24 : char_is_digit ch 10 = true
  · rw [if_pos e24] at h
    repeat' split at h
    all_goals
      first
      | exact Except.noConfusion h
      | (injection h with h2
         rw [← h2] at ht
         exact TokenType.noConfusion ht)
  rw [if_neg e24] at h
  injection h with h2
  rw [← h2] at ht
  exact TokenType.noConfusion ht
/-- A lexer whose current character and iterator are both exhausted is a
fixed point of read_token, which returns the EOF token there. -/
theorem eof_fixpoint (l : Lexer) (hc : l.current_char = none) (hi : l.input = []) :
    l.read_token = (.ok ⟨.EOF, .Position l.position⟩, l) := by
  obtain ⟨cc, inp, pos⟩ := l
  simp only at hc hi
  subst hc; subst hi
  rfl

/-- Same fixed point, stated for the dispatch after whitespace skipping. -/
theorem core_at_exhausted (l : Lexer) (hc : l.current_char = none) (hi : l.input = []) :
    Lexer.read_token_core l = (.ok ⟨.EOF, .Position l.position⟩, l) := by
  obtain ⟨cc, inp, pos⟩ := l
  simp only at hc hi
  subst hc; subst hi
  rfl

/-- Iterating read_token from an exhausted lexer stays at that lexer. -/
theorem eof_iter_stable (l : Lexer) (hc : l.current_char = none) (hi : l.input = []) :
    ∀ n : Nat, read_token_iter n l = l := by
  intro n
  induction n with
  | zero => rfl
  | succ k ihh =>
    rw [read_token_iter, eof_fixpoint l hc hi]
    exact ihh

/-- Outcome of read_string_go as a function of the remaining characters:
it agrees with the claim-side scan string_scan, for any lexer with that
input, any accumulated text and any sufficient fuel. -/
theorem read_string_go_outcome (input : List Char) :
    ∀ (fuel : Nat) (l : Lexer), l.input = input → input.length < fuel →
    ∀ (st : String) (previous : Char),
    string_outcome_of (Lexer.read_string_go fuel l st previous).1 =
      string_scan previous input := by
  induction input with
  | nil =>
    intro fuel l hl hf st prev
    match fuel with
    | f + 1 =>
      simp [Lexer.read_string_go, Lexer.read, hl, string_scan, string_outcome_of]
  | cons c rest ih =>
    intro fuel l hl hf st prev
    match fuel with
    | f + 1 =>
      have hf' : rest.length < f := by
        simpa [Nat.succ_lt_succ_iff] using hf
      simp only [Lexer.read_string_go, Lexer.read, hl]
      cases hn : is_newline c with
      | true => simp [string_scan, hn, string_outcome_of]
      | false =>
        cases hc : char_is_control c with
        | true => simp [string_scan, hn, hc, string_outcome_of]
        | false =>
          rw [string_scan]
          simp only [hn, hc, Bool.false_eq_true, if_false]
          by_cases hb : prev = '\\'
          · by_cases hcb : c = '\\'
            · subst hb; subst hcb
              simp +decide only []
              exact ih f _ rfl hf' _ _
            · subst hb
              simp +decide only [hcb]
              simp [hcb]
              exact ih f _ rfl hf' _ _
          · by_cases hq : c = '"'
            · subst hq
              simp +decide [hb, string_outcome_of]
            · simp [hb, hq]
              exact ih f _ rfl hf' _ _

/-- The claim-side scan only takes the four outcomes claim C5 names. -/
theorem string_scan_ne_other :
    ∀ (cs : List Char) (previous : Char), string_scan previous cs ≠ .other := by
  intro cs
  induction cs with
  | nil => intro prev h; simp [string_scan] at h
  | cons c rest ih =>
    intro prev h
    rw [string_scan] at h
    split at h
    · exact StrOutcome.noConfusion h
    · split at h
      · exact StrOutcome.noConfusion h
      · split at h
        · exact StrOutcome.noConfusion h
        · exact ih _ h

end NB.lexer

namespace NB.lexer

open NB.token

/-! ## Claim theorems settled at the lexer level (C5, C6, C7, C9) -/

/-- Claim C5: when read_string scans a string literal, exactly one of four
outcomes occurs, decided by the first terminating character after the
opening quote: an unescaped double quote ends the literal successfully
(with textual escaping where backslash-backslash cancels, so the second
backslash does not escape a following quote); a newline character yields
UnterminatedString; a non-newline control character yields InvalidString;
exhaustion of the input yields UnexpectedEOF.  Stated as: the outcome of
read_string equals the claim-side classification string_scan of the
remaining input, and that classification never takes the fifth
(any-other-error) value. -/
theorem c5_read_string_outcomes :
    (∀ (l : Lexer) (ch : Char),
      string_outcome_of (l.read_string ch).1 = string_scan (Char.ofNat 0) l.input) ∧
    (∀ (cs : List Char) (previous : Char), string_scan previous cs ≠ .other) := by
  constructor
  · intro l ch
    exact read_string_go_outcome l.input _ l rfl (Nat.lt_succ_self _) _ _
  · exact string_scan_ne_other

/-- Claim C6: once read_token has returned a token of kind EOF, every
subsequent call returns EOF again.  The hypothesis is the Peekable-iterator
invariant (an exhausted current character only arises with an exhausted
iterator), which holds of every lexer the constructor and reads produce:
under it, an EOF result pins the post state to the exhausted fixed point,
and all n-fold later calls return the same EOF token. -/
theorem c6_eof_stable (l : Lexer)
    (hinv : l.current_char = none → l.input = [])
    (t : Token) (l' : Lexer)
    (h : l.read_token = (.ok t, l'))
    (ht : t.token_type = .EOF) :
    ∀ n : Nat, (Lexer.read_token (read_token_iter n l')).1
        = .ok (Token.mk .EOF (.Position l'.position)) := by
  have hinv1 := skip_ws_preserves_inv l hinv
  have hcc : (l.skip_ws).current_char = none := by
    rcases hcase : (l.skip_ws).current_char with _ | ch
    · rfl
    · exfalso
      have hsome : (Lexer.read_token_some ch l.skip_ws).1 = .ok t := by
        have hrt : l.read_token = Lexer.read_token_core l.skip_ws := rfl
        rw [hrt, Lexer.read_token_core, hcase] at h
        exact congrArg Prod.fst h
      exact some_not_eof ch l.skip_ws t hsome ht
  have hin : (l.skip_ws).input = [] := hinv1 hcc
  have hcore := core_at_exhausted l.skip_ws hcc hin
  have hrt : l.read_token = Lexer.read_token_core l.skip_ws := rfl
  rw [hrt, hcore] at h
  have hl' : l' = l.skip_ws := (congrArg Prod.snd h).symm
  subst hl'
  intro n
  rw [eof_iter_stable _ hcc hin n, eof_fixpoint _ hcc hin]

/-- Witness for claim C6: the lexer over the empty input returns EOF at
once, and after two further read_token calls it still returns EOF, by
direct application of the stability theorem. -/
theorem c6_eof_stable_witness :
    (Lexer.read_token (read_token_iter 2 (Lexer.new []))).1
      = .ok (Token.mk .EOF (.Position ⟨1, 0⟩)) :=
  c6_eof_stable (Lexer.new []) (fun _ => rfl) (Token.mk .EOF (.Position ⟨1, 0⟩))
    (Lexer.new []) rfl rfl 2

/-- Claim C7, counterexample: a lexer consuming the input CR LF CR LF one
character at a time does NOT end at Position(line = 3, column = 0); it ends
at Position(line = 2, column = 2), whichever of the two read counts is
meant (four reads after the constructor, as in the repository's own
position_newline test, or four reads counting the constructor's initial
read). -/
theorem c7_crlf_position_not_3_0 :
    (Lexer.read_n 4 (Lexer.new "\r\n\r\n".data)).position = ⟨2, 2⟩ ∧
    (Lexer.read_n 4 (Lexer.new "\r\n\r\n".data)).position ≠ ⟨3, 0⟩ ∧
    (Lexer.read_n 3 (Lexer.new "\r\n\r\n".data)).position ≠ ⟨3, 0⟩ :=
  ⟨rfl, by decide, by decide⟩

/-- Claim C7 as amended: consuming CR LF CR LF one character at a time ends
at Position(line = 2, column = 2) - the LF of each CRLF pair is folded onto
the CR (no line increment inside a pair), the line advances once per pair
when the following character is read, and moving past a newline sets
line += 1 and column = 0 before the unconditional column increment. -/
theorem c7_crlf_position_2_2 :
    (Lexer.read_n 3 (Lexer.new "\r\n\r\n".data)).position = ⟨2, 2⟩ ∧
    (Lexer.read_n 4 (Lexer.new "\r\n\r\n".data)).position = ⟨2, 2⟩ :=
  ⟨rfl, rfl⟩

/-- Claim C9, counterexample: the lexer constructor does not reject the
empty input - there is no assertion; Lexer::new of the empty input is the
plain exhausted state, and read_token on it immediately returns EOF. -/
theorem c9_empty_constructor_succeeds :
    Lexer.new [] = ⟨none, [], ⟨1, 0⟩⟩ ∧
    (Lexer.read_token (Lexer.new [])).1 = .ok (Token.mk .EOF (.Position ⟨1, 0⟩)) :=
  ⟨rfl, rfl⟩

end NB.lexer

namespace NB.parser

open NB.token NB.lexer NB.ast

/-! ## Claim theorems settled at the parser level (C1-C4, C8, C9, C10) -/

/-- Claim C1 (a code bug): the spec scenario says parsing
"let x = 1 + 2 * 3 ^ 4;" succeeds with the precedence-nested right-hand
side.  The code instead rejects it: parse_variable_declaration never
consumes the Eq token, so the declaration aborts with UnexpectedToken at
the equals sign, and the best-effort restart (whose infix loop compares
the precedence of the token AFTER the operator, not the operator itself)
then rejects each remaining operator in turn.  This theorem evaluates the
embedded parser at the failing input. -/
theorem c1_let_precedence_statement_rejected :
    parse "let x = 1 + 2 * 3 ^ 4;" =
      .errs
        [ .UnexpectedToken .Eq (.Position ⟨1, 5⟩)
        , .UnexpectedToken .Plus (.Position ⟨1, 9⟩)
        , .UnexpectedToken .Multiplication (.Position ⟨1, 13⟩)
        , .UnexpectedToken .Power (.Position ⟨1, 17⟩)
        , .UnexpectedToken .Semicolon (.Position ⟨1, 20⟩) ] := rfl

/-- Claim C2 (a code bug): the claim says the lexer consumes a 0b/0o/0x
prefix so that the token carries only the digits after it, and the number
conversion then succeeds (0b101 as Int 5, 0x1F as Int 31).  In the code,
read_number starts from current_char - which the prefix branch has just
advanced onto the base letter - so the Binary token of "0b101;" carries
"b101", and parse_number reports InvalidNumber for it (and likewise "x1F"
for "0x1F;"). -/
theorem c2_base_prefix_numbers_invalid :
    (Lexer.read_token (Lexer.new "0b101;".data)).1
        = .ok (Token.mk (.Number (.Binary "b101")) (.Span ⟨⟨1, 1⟩, ⟨1, 2⟩⟩)) ∧
    parse "0b101;" = .errs [.InvalidNumber "b101" (.Span ⟨⟨1, 1⟩, ⟨1, 2⟩⟩)] ∧
    parse "0x1F;" = .errs [.InvalidNumber "x1F" (.Span ⟨⟨1, 1⟩, ⟨1, 2⟩⟩)] :=
  ⟨rfl, rfl, rfl⟩

/-- Claim C3 (a code bug): the spec scenario says
"fun f(x: int, y: int) -> int { return x + y; }" parses into a
FunDeclaration.  The code rejects it: parse_function_prototype consumes the
parameter's type with cur_token() and then calls parse_type, which consumes
the NEXT token (the comma) and rejects it, and recovery produces three more
diagnostics.  This theorem evaluates the embedded parser at the failing
input. -/
theorem c3_function_declaration_rejected :
    parse "fun f(x: int, y: int) -> int \x7b return x + y; \x7d" =
      .errs
        [ .UnexpectedToken .Comma (.Position ⟨1, 9⟩)
        , .UnexpectedToken .Colon (.Position ⟨1, 12⟩)
        , .UnexpectedToken .Rparen (.Position ⟨1, 15⟩)
        , .UnexpectedEOF (.Position ⟨1, 25⟩) ] := rfl

/-- Claim C4, counterexample: a call written f(a, b) - no trailing comma -
does NOT parse into FunCall with argument list [a, b]; the expression list
loop requires a comma after every element, so the parse fails (expect_token
reports its mismatch as UnexpectedEOF). -/
theorem c4_no_trailing_comma_fails :
    parse "f(a, b);" =
      .errs [ .UnexpectedEOF (.Position ⟨1, 8⟩)
            , .UnexpectedToken .Semicolon (.Position ⟨1, 8⟩) ] ∧
    parse "f(a, b);" ≠
      .prog [.Expression (.FunCall "f" [.Identifier "a", .Identifier "b"])] :=
  ⟨rfl, fun hcl => ParseOutcome.noConfusion hcl⟩

/-- Claim C4 as amended: in argument and array-literal lists every
expression must be followed by a comma (a trailing comma is required before
the terminator); an immediate terminator still yields the empty list.  So
f(a, b,) yields FunCall with [a, b], f() yields the empty argument list,
and [1, 2,] yields the two-element Array. -/
theorem c4_trailing_comma_lists :
    parse "f(a, b,);" =
      .prog [.Expression (.FunCall "f" [.Identifier "a", .Identifier "b"])] ∧
    parse "f();" = .prog [.Expression (.FunCall "f" [])] ∧
    parse "[1, 2,];" =
      .prog [.Expression (.Literal (.Array
        [.Literal (.Number (.Int 1)), .Literal (.Number (.Int 2))]))] :=
  ⟨rfl, rfl, rfl⟩

/-- Claim C8: for every reserved keyword of the language, parsing the input
consisting of exactly that keyword returns Err with exactly one diagnostic,
of kind ReservedKeyword.  Checked by running the embedded parser over all
27 keywords the claim enumerates. -/
theorem c8_reserved_keywords_single_diag :
    reserved_keywords_claim.all is_single_reserved_keyword_diag = true := rfl

/-- Claim C9 as amended: constructing a lexer from the empty input succeeds
(no precondition failure exists in the constructor); the lexer immediately
returns EOF, and parse of the empty input returns an empty Program. -/
theorem c9_empty_input_accepted :
    (Lexer.read_token (Lexer.new "".data)).1 = .ok (Token.mk .EOF (.Position ⟨1, 0⟩)) ∧
    parse "" = .prog [] :=
  ⟨rfl, rfl⟩

/-- Claim C10: after the inner expression of a parenthesized expression,
the parser consumes the token at the closing position without verifying it
is a right parenthesis and without recording a diagnostic - the
expect_token(Rparen) result is discarded.  Stated as: for every fuel and
parser state, parse_paren_expression equals the claim-side function that
performs no check at all; and concretely, "(1];" (closing parenthesis
replaced by a bracket) parses successfully with the bracket silently
consumed. -/
theorem c10_paren_close_unchecked :
    (∀ (fuel : Nat) (s : Parser),
        parse_paren_expression fuel s = parse_paren_claim fuel s) ∧
    parse "(1];" = .prog [.Expression (.Literal (.Number (.Int 1)))] := by
  constructor
  · intro fuel s
    cases fuel with
    | zero => rfl
    | succ f => rfl
  · rfl

end NB.parser
